import Mathlib

/-!
Verification of the bol.com product scraper (src/: config.py, browser.py,
extractors.py, url_extractor.py, scraper.py) by shallow embedding.

Conventions of the embedding:
* Python `None` / absent values become `Option`; a swallowed exception at
  the place the source catches it becomes the same `none` the source
  converts it to.
* The browser/DOM is external state; each page is modelled as a structure
  recording exactly the observations the scraped functions make of it
  (element texts, element presence, per-call outcomes).
* Python `\d` and chars are modelled over ASCII (`Char.isDigit`), which is
  what the scraped site produces; `float(...)` on an `"INT.FRAC"` string is
  modelled as succeeding exactly for decimal-digit fractions; any other
  fraction text is a parse error (`ValueError`), which the price
  extractor's inner handler catches before falling through to the
  `"00"`-fraction default.
* Machine floats are modelled as exact rationals: the source only parses
  and stores prices, it never computes with them.
-/

/-! ### Constants from src/config.py -/

def BOL_BASE_URL : String := "https://www.bol.com"

def PRODUCT_URL_PATH : String := "/nl/nl/p/"

def CATEGORY_URL_PATH : String := "/nl/nl/l/"

def RETRY_ATTEMPTS : Nat := 2

/-! ### Python list(dict.fromkeys(..)) : first-seen-order deduplication
(src/url_extractor.py line 129). -/

/-- Accumulator form of first-seen deduplication: `seen` holds the keys
already emitted; a repeated key is skipped, a new key is emitted and
remembered. This is the iteration behaviour of `dict.fromkeys`. -/
def dedupFirstAux (seen : List String) : List String → List String
  | [] => []
  | x :: xs => if x ∈ seen then dedupFirstAux seen xs
               else x :: dedupFirstAux (x :: seen) xs

/-- Python `list(dict.fromkeys(l))`: removes duplicates keeping the first
occurrence of each element, preserving first-seen order. -/
def pyDedup (l : List String) : List String := dedupFirstAux [] l

/-! ### EAN regex (src/config.py line 18, src/extractors.py lines 211-223)

`EAN_PATTERN = r'EAN[:\s\-]*(\d{8,14})'`, applied with `re.search` and
`re.IGNORECASE`.  The separator class and the digit class are disjoint, so
the greedy `[:\s\-]*` never backtracks into the digit group: a match at a
given position exists iff the three keyword letters appear there
(case-insensitively), followed by a maximal separator run, followed by at
least 8 digits; the captured group is the first `min 14` of those digits.
`re.search` returns the match at the leftmost feasible position. -/

/-- Python whitespace (`\s`, `str.strip`) over the texts at hand: ASCII
whitespace, including vertical tab and form feed. -/
def pyIsSpace (c : Char) : Bool :=
  c = ' ' || c = '\t' || c = '\n' || c = '\r' || c = '\x0b' || c = '\x0c'

/-- Python `str.strip()`: drop leading and trailing whitespace. -/
def pyStrip (s : String) : String :=
  String.mk
    (((s.data.dropWhile pyIsSpace).reverse.dropWhile pyIsSpace).reverse)

/-- Python regex class `[:\s\-]`. -/
def isEanSep (c : Char) : Bool :=
  c = ':' || pyIsSpace c || c = '-'

/-- Attempt of `EAN[:\s\-]*(\d{8,14})` anchored at the start of `cs`;
returns the captured digit group on success. -/
def eanMatchAt (cs : List Char) : Option String :=
  match cs with
  | c1 :: c2 :: c3 :: rest =>
    if c1.toLower = 'e' && c2.toLower = 'a' && c3.toLower = 'n' then
      let ds := (rest.dropWhile isEanSep).takeWhile Char.isDigit
      if 8 ≤ ds.length then some (String.mk (ds.take 14)) else none
    else none
  | _ => none

/-- Leftmost search of the pattern over the character list, as
`re.search` does. -/
def eanSearch : List Char → Option String
  | [] => none
  | c :: cs =>
    match eanMatchAt (c :: cs) with
    | some r => some r
    | none => eanSearch cs

/-- Embedding of `_extract_ean_regex`: the full panel text is read via
script evaluation (`none` = the script call raised, swallowed to `None`);
on a match the captured group is stripped and returned. -/
def extract_ean_regex (panelText : Option String) : Option String :=
  match panelText with
  | none => none
  | some t =>
    match eanSearch t.data with
    | some r => some (pyStrip r)
    | none => none

/-! ### Price extraction (src/extractors.py lines 27-65) -/

/-- Digit string to number, as Python would parse the integer part. -/
def digitsToNat (l : List Char) : Nat :=
  l.foldl (fun n c => 10 * n + (c.toNat - '0'.toNat)) 0

/-- Value of `float("MAIN.FRAC")` for a digit string `main` and digit
string `frac`. -/
def priceVal (main frac : List Char) : ℚ :=
  (digitsToNat main : ℚ) + (digitsToNat frac : ℚ) / 10 ^ frac.length

/-- Python `float(f"{main}.{frac}")` where `main` is a nonempty digit
string: succeeds exactly for decimal-digit fraction texts; any other text
raises `ValueError` (modelled as `none`).  The call sits inside the
source's inner `try`, so its caller recovers from `none` by falling
through to the `"00"`-fraction default. -/
def pyFloatCombine (main frac : List Char) : Option ℚ :=
  if frac.all Char.isDigit then some (priceVal main frac) else none

/-- Observations `get_product_price` makes of the product page. -/
structure PricePage where
  /-- Trimmed text of the price element's leading text node; `none` when
  the wait/lookup/script step fails (element absent or timeout). -/
  priceText : Option String
  /-- Text of the `price-fraction` sub-element; `none` when that element
  is absent (its lookup raises, swallowed by the inner handler). -/
  fractionText : Option String

/-- Embedding of `get_product_price`: strip non-digits from the leading
text node to get the integer part, fail if empty; combine with the
fraction element's stripped text when present and nonempty; when the
combine raises (unparseable fraction) the inner handler swallows it and,
as when the fraction element is absent or its text empty, the fraction
defaults to `"00"`. -/
def get_product_price (pg : PricePage) : Option ℚ :=
  match pg.priceText with
  | none => none
  | some raw =>
    let main := raw.data.filter Char.isDigit
    if main = [] then none
    else
      match pg.fractionText with
      | some ft =>
        if pyStrip ft ≠ "" then
          match pyFloatCombine main (pyStrip ft).data with
          | some v => some v
          | none => some (priceVal main ['0', '0'])
        else some (priceVal main ['0', '0'])
      | none => some (priceVal main ['0', '0'])

/-! ### EAN extraction control flow (src/extractors.py lines 68-162)

Each tier function (`_extract_ean_structured`, `_extract_ean_javascript`,
`_extract_ean_regex`) catches every exception internally and returns
`None` for it, so from `_extract_ean_from_specs`'s point of view a tier
has three observable outcomes: a (truthy) value, nothing, or an internal
exception that the tier itself swallowed.  The tiers read the live DOM,
so they are modelled as oracles indexed by the panel state (before/after
the show-more expansion). -/

/-- Observable outcome of one extraction tier on one panel state. -/
inductive TierOutcome where
  | found (s : String)
  | absent
  | raised
deriving DecidableEq

/-- Value a tier function returns to its caller: the tier's own handler
turns `raised` into `None`. -/
def TierOutcome.run : TierOutcome → Option String
  | .found s => some s
  | .absent => none
  | .raised => none

/-- Rewrites an in-tier exception into plain not-found. -/
def TierOutcome.cleanse : TierOutcome → TierOutcome
  | .raised => .absent
  | o => o

/-- Observations `get_product_ean` makes of the product page. The `Bool`
argument of each tier oracle is the panel state: `false` before the
show-more click, `true` after the panel is re-resolved. -/
structure EanPage where
  /-- Wait for the specification section, its lookup, and the scroll into
  view all succeed. -/
  specOk : Bool
  /-- Outcome of `_extract_ean_structured` on each panel state. -/
  t1 : Bool → TierOutcome
  /-- Outcome of `_extract_ean_javascript` on each panel state. -/
  t2 : Bool → TierOutcome
  /-- Outcome of `_extract_ean_regex` on each panel state. -/
  t3 : Bool → TierOutcome
  /-- The show-more control exists in the panel and the scroll, the
  script-invoked click and the re-resolution of the panel all succeed
  (any failure among these raises inside `_try_show_more_and_extract`
  and is swallowed there). -/
  showMoreOk : Bool

/-- Embedding of `_extract_ean_from_specs`: the three tiers in strict
order, first success wins. -/
def extract_ean_from_specs (o1 o2 o3 : TierOutcome) : Option String :=
  match o1.run with
  | some e => some e
  | none =>
    match o2.run with
    | some e => some e
    | none => o3.run

/-- Embedding of `_try_show_more_and_extract`: click the show-more
control via script, re-resolve the panel, and run the three tiers on the
expanded panel; any failure of the click path yields `None`. -/
def try_show_more_and_extract (pg : EanPage) : Option String :=
  if pg.showMoreOk then
    extract_ean_from_specs (pg.t1 true) (pg.t2 true) (pg.t3 true)
  else none

/-- Embedding of `get_product_ean`: acquire and scroll to the panel, run
the three tiers; if all report nothing, take the show-more path once. -/
def get_product_ean (pg : EanPage) : Option String :=
  if pg.specOk then
    match extract_ean_from_specs (pg.t1 false) (pg.t2 false) (pg.t3 false) with
    | some e => some e
    | none => try_show_more_and_extract pg
  else none

/-! ### Retry wrapper (src/browser.py lines 58-81)

The extraction function reads the live page, so successive calls may give
different results: it is modelled as a sequence of per-attempt results
together with Python's truthiness predicate on the result type.  Besides
the returned value the embedding records how many calls and how many
inter-attempt sleeps the loop performs, since the claims speak about
those. -/

/-- Trace of one `retry_extraction` run. -/
structure RetryTrace (α : Type) where
  result : Option α
  calls : Nat
  sleeps : Nat
deriving DecidableEq

/-- Loop body of `retry_extraction`, recursion on the number of remaining
attempts; `attempt` is the current 0-based attempt index.  A truthy result
returns immediately (no sleep); a falsy result sleeps only when further
attempts remain (`attempt < max_attempts - 1`). -/
def retryAux {α : Type} (f : Nat → α) (truthy : α → Bool) (attempt : Nat) :
    Nat → RetryTrace α
  | 0 => ⟨none, 0, 0⟩
  | remaining + 1 =>
    let r := f attempt
    if truthy r then ⟨some r, 1, 0⟩
    else if remaining = 0 then ⟨none, 1, 0⟩
    else
      let t := retryAux f truthy (attempt + 1) remaining
      ⟨t.result, t.calls + 1, t.sleeps + 1⟩

/-- Embedding of `retry_extraction(extraction_func, driver, wait,
max_attempts)`: `f k` is the result of the extraction function on its
(k+1)-th call. -/
def retry_extraction {α : Type} (f : Nat → α) (truthy : α → Bool)
    (max_attempts : Nat) : RetryTrace α :=
  retryAux f truthy 0 max_attempts

/-! ### Product URL collection on one listing page
(src/url_extractor.py lines 93-133) -/

/-- Observations `extract_product_urls` makes of one listing page.
`urljoin` from `urllib` is an external library function and is passed in
as `join` below. -/
structure ListingPage where
  /-- `navigate_to_page` returned True. -/
  navOk : Bool
  /-- The bounded wait for a product-link element succeeded (a timeout
  raises and is swallowed into an empty result). -/
  waitOk : Bool
  /-- `href` attribute of each matched link element, in DOM order;
  `none` when `get_attribute` returns None (a raising lookup is skipped
  the same way). -/
  links : List (Option String)

/-- Contiguous-substring test on character lists, structurally
recursive so that concrete instances evaluate. -/
def substrList (needle : List Char) : List Char → Bool
  | [] => needle.isEmpty
  | c :: cs => needle.isPrefixOf (c :: cs) || substrList needle cs

/-- Python `needle in hay` on strings: substring test. -/
def pySubstr (needle hay : String) : Bool :=
  substrList needle.data hay.data

/-- Per-link processing of `extract_product_urls`: keep truthy hrefs,
resolve against the site base, strip the query string, and keep only
product-path URLs that are not category-path URLs. -/
def candidateUrls (join : String → String) (pg : ListingPage) : List String :=
  ((pg.links.filterMap id).filter (fun h => h ≠ "")).map
      (fun href => String.mk ((join href).data.takeWhile (fun c => c ≠ '?')))
    |>.filter (fun u => pySubstr PRODUCT_URL_PATH u &&
                        !(pySubstr CATEGORY_URL_PATH u))

/-- Embedding of `extract_product_urls`: navigation or wait failure gives
an empty list; otherwise the candidate URLs deduplicated in first-seen
order. -/
def extract_product_urls (join : String → String) (pg : ListingPage) :
    List String :=
  if pg.navOk then
    if pg.waitOk then pyDedup (candidateUrls join pg) else []
  else []

/-! ### Category-level URL collection
(src/url_extractor.py lines 136-196)

The accumulator `all_product_urls` is a Python `set`, and the function
returns `list(all_product_urls)`.  CPython specifies only that iterating
a set yields each element exactly once, in an unspecified (hash- and
history-dependent) order; the embedding therefore takes the conversion
`list(:set)` as a parameter `enum`, applied to the sequence of insertions
the code performs, constrained only by `IsSetEnum` below. -/

/-- Constraint CPython places on `list(s)` for a set `s` built by
inserting the elements of `xs` in order: each distinct inserted element
appears exactly once; the order is unspecified. -/
def IsSetEnum (enum : List String → List String) : Prop :=
  ∀ xs : List String, (enum xs).Nodup ∧ ∀ a, a ∈ enum xs ↔ a ∈ xs

/-- Observations `extract_product_urls_from_category` makes of the world:
the category page itself and, per synthesized page URL, the product URLs
`extract_product_urls` yields for it. -/
structure CategoryWorld where
  /-- `navigate_to_page(category_url)` returned True. -/
  navOk : Bool
  /-- The wait for a product-link element on the category page succeeded
  (a timeout raises into the outer handler, which returns the — empty —
  set accumulated so far). -/
  waitOk : Bool
  /-- Result of `extract_all_page_urls_from_pagination`: the synthesized
  page URLs, page 1 first. -/
  pageUrls : List String
  /-- Result of `extract_product_urls` on each processed page URL. -/
  products : String → List String

/-- End page of the processed range once `total_pages` is known:
`total_pages` when `max_pages` is None, else
`min(start_page + max_pages - 1, total_pages)`. -/
def resolvedEndPage (total start : Nat) (max_pages : Option Nat) : Nat :=
  match max_pages with
  | none => total
  | some m => min (start + m - 1) total

/-- Python slice `page_urls[start-1:end]`. -/
def pagesToProcess (pageUrls : List String) (start endP : Nat) :
    List String :=
  (pageUrls.drop (start - 1)).take (endP - (start - 1))

/-- Sequence of insertions into `all_product_urls` over the whole run
when the page range is reached: the per-page URL lists of the processed
pages, concatenated in processing order. -/
def categoryInsertionSeq (w : CategoryWorld) (start_page : Nat)
    (max_pages : Option Nat) : List String :=
  let total := w.pageUrls.length
  let start := max 1 start_page
  (pagesToProcess w.pageUrls start (resolvedEndPage total start max_pages)).flatMap
    w.products

/-- Embedding of `extract_product_urls_from_category`.  Navigation
failure returns `[]`; a wait failure raises into the handler which
returns the accumulated (empty) set; `start_page` is clamped to ≥ 1; a
start page beyond the last page returns `[]`; otherwise the per-page
results of the sliced range are inserted into the set and the set is
returned as a list. -/
def extract_product_urls_from_category (enum : List String → List String)
    (w : CategoryWorld) (start_page : Nat) (max_pages : Option Nat) :
    List String :=
  if w.navOk then
    if w.waitOk then
      let total := w.pageUrls.length
      let start := max 1 start_page
      if start > total then []
      else enum (categoryInsertionSeq w start_page max_pages)
    else enum []
  else []

/-! ### Orchestrator: two-phase extraction (src/scraper.py)

The two `retry_extraction` composites per product read the live page, so
phase 1 is modelled by an oracle giving, per URL, the pair of composite
results (`none` = every attempt returned a falsy value) or the fact that
an exception escaped that product's processing; phase 2 by two oracles
for the per-field composite results in the retry pass.  Record fields
store `none` where the source stores `''`; the counters are integers,
exactly as in Python. -/

/-- One row of `products_data` (and the object `products_dict` points
to). -/
structure ProductRec where
  url : String
  ean : Option String
  price : Option ℚ
deriving DecidableEq

/-- Observable outcome of processing one product URL in phase 1. -/
inductive FetchOutcome where
  | ok (price : Option ℚ) (ean : Option String)
  | exn
deriving DecidableEq

/-- State threaded through `_extract_product_details` and mutated by
`_retry_failed_products`. -/
structure Stats where
  products : List ProductRec
  failed : List String
  missingEan : Int
  missingPrice : Int
  errorCount : Int
deriving DecidableEq

/-- Loop body of `_extract_product_details` for one product URL. -/
def stepProduct (fetch : String → FetchOutcome) (st : Stats) (url : String) :
    Stats :=
  match fetch url with
  | .ok price ean =>
    { products := st.products ++ [⟨url, ean, price⟩]
      failed := if price = none ∨ ean = none then st.failed ++ [url]
                else st.failed
      missingEan := if ean = none then st.missingEan + 1 else st.missingEan
      missingPrice := if price = none then st.missingPrice + 1
                      else st.missingPrice
      errorCount := if price = none ∧ ean = none then st.errorCount + 1
                    else st.errorCount }
  | .exn =>
    { products := st.products ++ [⟨url, none, none⟩]
      failed := st.failed ++ [url]
      missingEan := st.missingEan
      missingPrice := st.missingPrice
      errorCount := st.errorCount + 1 }

/-- Embedding of `_extract_product_details`. -/
def extract_product_details (fetch : String → FetchOutcome)
    (urls : List String) : Stats :=
  urls.foldl (stepProduct fetch) ⟨[], [], 0, 0, 0⟩

/-- Updates the first record with the given URL, leaving the rest
unchanged. -/
def updateFirstBy (f : ProductRec → ProductRec) (url : String) :
    List ProductRec → List ProductRec
  | [] => []
  | r :: rs => if r.url = url then f r :: rs
               else r :: updateFirstBy f url rs

/-- Updates the last record with the given URL: `products_dict[url]` is
the record object stored last for that URL, and mutating it in place
changes exactly that entry of `products_data`. -/
def updateLastBy (f : ProductRec → ProductRec) (url : String)
    (recs : List ProductRec) : List ProductRec :=
  (updateFirstBy f url recs.reverse).reverse

/-- `products_dict.get(url)`: the record stored last under that URL. -/
def lastRec (recs : List ProductRec) (url : String) : Option ProductRec :=
  recs.reverse.find? (fun r => r.url = url)

/-- Loop body of `_retry_failed_products` for one failed URL: re-attempt
exactly the still-empty fields; a recovered field is written into the
record in place and the corresponding missing-counter decremented;
`error_count` is not touched. -/
def retryStep (p2price : String → Option ℚ) (p2ean : String → Option String)
    (st : Stats) (url : String) : Stats :=
  match lastRec st.products url with
  | none => st
  | some r =>
    let pRes : Option ℚ := if r.price = none then p2price url else none
    let eRes : Option String := if r.ean = none then p2ean url else none
    { products := updateLastBy
        (fun q => ⟨q.url,
                   match eRes with | some e => some e | none => q.ean,
                   match pRes with | some v => some v | none => q.price⟩)
        url st.products
      failed := st.failed
      missingEan := if eRes.isSome then st.missingEan - 1 else st.missingEan
      missingPrice := if pRes.isSome then st.missingPrice - 1
                      else st.missingPrice
      errorCount := st.errorCount }

/-- Embedding of `_retry_failed_products`: one pass over the failure
list recorded in phase 1. -/
def retry_failed_products (p2price : String → Option ℚ)
    (p2ean : String → Option String) (st : Stats) : Stats :=
  st.failed.foldl (retryStep p2price p2ean) st

/-- Statistics at the end of `scrape_category_products` (just before
`_print_summary` / saving): phase 1 over the URL list, then the retry
pass when the failure list is nonempty. -/
def scrapeStats (fetch : String → FetchOutcome)
    (p2price : String → Option ℚ) (p2ean : String → Option String)
    (urls : List String) : Stats :=
  let st := extract_product_details fetch urls
  if st.failed ≠ [] then retry_failed_products p2price p2ean st else st

/-- Relation between a record before and after the retry phase: the URL
is unchanged and every field that already held a value holds exactly
that value afterwards. -/
def PreservedRec (b a : ProductRec) : Prop :=
  a.url = b.url ∧
  (∀ v, b.price = some v → a.price = some v) ∧
  (∀ e, b.ean = some e → a.ean = some e)

/-! ## Theorems -/

/-! ### Retry wrapper -/

theorem retryAux_all_falsy {α : Type} (f : Nat → α) (truthy : α → Bool) :
    ∀ (r a : Nat), (∀ k, k < r → truthy (f (a + k)) = false) →
    retryAux f truthy a r = ⟨none, r, r - 1⟩ := by
  intro r
  induction r with
  | zero => intro a _; rfl
  | succ n ih =>
    intro a h
    have h0 : truthy (f a) = false := by simpa using h 0 (Nat.succ_pos n)
    by_cases hn : n = 0
    · subst hn; simp [retryAux, h0]
    · have ihn : retryAux f truthy (a + 1) n = ⟨none, n, n - 1⟩ := by
        refine ih (a + 1) (fun k hk => ?_)
        have := h (k + 1) (by omega)
        simpa [Nat.add_assoc, Nat.add_comm 1 k] using this
      simp [retryAux, h0, hn, ihn]
      omega

theorem retryAux_first_success {α : Type} (f : Nat → α) (truthy : α → Bool) :
    ∀ (k r a : Nat), k < r → (∀ j, j < k → truthy (f (a + j)) = false) →
    truthy (f (a + k)) = true →
    retryAux f truthy a r = ⟨some (f (a + k)), k + 1, k⟩ := by
  intro k
  induction k with
  | zero =>
    intro r a hr _ hk
    obtain ⟨n, rfl⟩ : ∃ n, r = n + 1 := ⟨r - 1, by omega⟩
    simp at hk
    simp [retryAux, hk]
  | succ m ih =>
    intro r a hr hprev hk
    obtain ⟨n, rfl⟩ : ∃ n, r = n + 1 := ⟨r - 1, by omega⟩
    have h0 : truthy (f a) = false := by simpa using hprev 0 (Nat.succ_pos m)
    have hn : n ≠ 0 := by omega
    have ihn : retryAux f truthy (a + 1) n = ⟨some (f (a + 1 + m)), m + 1, m⟩ := by
      refine ih n (a + 1) (by omega) (fun j hj => ?_) ?_
      · have := hprev (j + 1) (by omega)
        simpa [Nat.add_assoc, Nat.add_comm 1 j] using this
      · have : a + 1 + m = a + (m + 1) := by omega
        rw [this]; exact hk
    have harg : a + 1 + m = a + (m + 1) := by omega
    simp [retryAux, h0, hn, ihn, harg]

/-- C4: the retry wrapper calls the extraction function up to
`max_attempts` times, returns the first truthy result immediately (having
been called `k+1` times and slept `k` times if the first truthy result is
at 0-based attempt `k`), sleeps between attempts but not after the final
one, and returns `none` after `max_attempts` calls and `max_attempts - 1`
sleeps when every attempt is falsy; concretely, an extraction that fails
twice then succeeds returns the success under `max_attempts = 3` (three
calls) and returns `none` under `max_attempts = 2`, called exactly twice
with one sleep. -/
theorem C4_retry_wrapper {α : Type} (f : Nat → α) (truthy : α → Bool)
    (max_attempts : Nat) :
    ((∀ k, k < max_attempts → truthy (f k) = false) →
      retry_extraction f truthy max_attempts =
        ⟨none, max_attempts, max_attempts - 1⟩) ∧
    (∀ k, k < max_attempts → (∀ j, j < k → truthy (f j) = false) →
      truthy (f k) = true →
      retry_extraction f truthy max_attempts = ⟨some (f k), k + 1, k⟩) ∧
    retry_extraction (fun k => if 2 ≤ k then "ok" else "")
        (fun s => s != "") 3 = ⟨some "ok", 3, 2⟩ ∧
    retry_extraction (fun k => if 2 ≤ k then "ok" else "")
        (fun s => s != "") 2 = ⟨none, 2, 1⟩ := by
  refine ⟨?_, ?_, by decide, by decide⟩
  · intro h
    have := retryAux_all_falsy f truthy max_attempts 0 (fun k hk => by
      simpa using h k hk)
    simpa [retry_extraction] using this
  · intro k hk hprev hsucc
    have := retryAux_first_success f truthy k max_attempts 0 hk
      (fun j hj => by simpa using hprev j hj) (by simpa using hsucc)
    simpa [retry_extraction] using this

/-- Witness for C4 at a concrete input: three attempts over an extraction
that is falsy on attempts 0 and 1 and truthy on attempt 2. -/
theorem C4_retry_wrapper_witness :
    retry_extraction (fun k => if 2 ≤ k then "ok" else "")
        (fun s => s != "") 3 = ⟨some "ok", 3, 2⟩ ∧
    retry_extraction (fun k => if 2 ≤ k then "ok" else "") (fun s => s != "")
        5 = ⟨some (if (2:Nat) ≤ 2 then "ok" else ""), 3, 2⟩ := by
  refine ⟨(C4_retry_wrapper (fun k => if 2 ≤ k then "ok" else "")
    (fun s => s != "") 3).2.2.1, ?_⟩
  exact (C4_retry_wrapper (fun k => if 2 ≤ k then "ok" else "")
    (fun s => s != "") 5).2.1 2 (by decide) (fun j hj => by
      interval_cases j <;> decide) (by decide)

/-! ### Regex fallback tier -/

theorem toLower_eq_self_of_isDigit {c : Char} (hc : c.isDigit = true) :
    c.toLower = c := by
  simp [Char.isDigit] at hc
  obtain ⟨h1, h2⟩ := hc
  simp [Char.toLower]
  intro h
  exact absurd (le_trans h h2) (by decide)

theorem isEanSep_eq_false_of_isDigit {c : Char} (hc : c.isDigit = true) :
    isEanSep c = false := by
  by_contra h
  rw [Bool.not_eq_false] at h
  simp [isEanSep, pyIsSpace] at h
  have hcase : c = ':' ∨ c = ' ' ∨ c = '\t' ∨ c = '\n' ∨ c = '\r' ∨
      c = '\x0b' ∨ c = '\x0c' ∨ c = '-' := by tauto
  rcases hcase with rfl | rfl | rfl | rfl | rfl | rfl | rfl | rfl <;>
    exact absurd hc (by decide)

theorem dropWhile_append_of_all {α : Type} (p : α → Bool) :
    ∀ (l1 l2 : List α), l1.all p = true →
    (l1 ++ l2).dropWhile p = l2.dropWhile p := by
  intro l1
  induction l1 with
  | nil => intro l2 _; rfl
  | cons a l ih =>
    intro l2 h
    simp at h
    simp [List.dropWhile_cons, h.1, ih l2 (List.all_eq_true.mpr h.2)]

theorem dropWhile_isEanSep_of_digits {ds : List Char}
    (h : ds.all Char.isDigit = true) : ds.dropWhile isEanSep = ds := by
  cases ds with
  | nil => rfl
  | cons d l =>
    simp at h
    simp [List.dropWhile_cons, isEanSep_eq_false_of_isDigit h.1]

theorem takeWhile_isDigit_of_digits {ds : List Char}
    (h : ds.all Char.isDigit = true) : ds.takeWhile Char.isDigit = ds := by
  induction ds with
  | nil => rfl
  | cons d l ih =>
    simp at h
    simp [List.takeWhile_cons, h.1, ih (List.all_eq_true.mpr h.2)]

theorem eanMatchAt_of_not_e {c : Char} (hc : c.toLower ≠ 'e')
    (cs : List Char) : eanMatchAt (c :: cs) = none := by
  cases cs with
  | nil => rfl
  | cons c2 cs2 =>
    cases cs2 with
    | nil => rfl
    | cons c3 r => simp [eanMatchAt, hc]

theorem eanMatchAt_digit_head {c : Char} (hc : c.isDigit = true)
    (cs : List Char) : eanMatchAt (c :: cs) = none := by
  refine eanMatchAt_of_not_e ?_ cs
  rw [toLower_eq_self_of_isDigit hc]
  intro h
  subst h
  exact absurd hc (by decide)

theorem eanSearch_all_digits {ds : List Char}
    (h : ds.all Char.isDigit = true) : eanSearch ds = none := by
  induction ds with
  | nil => rfl
  | cons d l ih =>
    simp at h
    simp [eanSearch, eanMatchAt_digit_head h.1,
      ih (List.all_eq_true.mpr h.2)]

theorem eanMatchAt_digits_shape {cs : List Char} {r : String}
    (h : eanMatchAt cs = some r) :
    r.data.all Char.isDigit = true ∧ 8 ≤ r.length ∧ r.length ≤ 14 := by
  match cs with
  | [] => exact absurd h (by simp [eanMatchAt])
  | [c1] => exact absurd h (by simp [eanMatchAt])
  | [c1, c2] => exact absurd h (by simp [eanMatchAt])
  | c1 :: c2 :: c3 :: rest =>
    simp only [eanMatchAt] at h
    by_cases hkw : (c1.toLower = 'e' && c2.toLower = 'a' && c3.toLower = 'n') = true
    · rw [if_pos hkw] at h
      set ds := (rest.dropWhile isEanSep).takeWhile Char.isDigit with hds
      by_cases hlen : 8 ≤ ds.length
      · rw [if_pos hlen] at h
        have hr : r = String.mk (ds.take 14) := (Option.some.inj h).symm
        subst hr
        refine ⟨?_, ?_, ?_⟩
        · simp only [String.data]
          rw [List.all_eq_true]
          intro x hx
          have hx' : x ∈ ds := List.mem_of_mem_take hx
          exact List.mem_takeWhile_imp hx'
        · simp [String.length, List.length_take]
          omega
        · simp [String.length, List.length_take]
      · rw [if_neg hlen] at h; exact absurd h (by simp)
    · rw [if_neg hkw] at h; exact absurd h (by simp)

theorem eanSearch_digits_shape {t : List Char} {r : String}
    (h : eanSearch t = some r) :
    r.data.all Char.isDigit = true ∧ 8 ≤ r.length ∧ r.length ≤ 14 := by
  induction t with
  | nil => exact absurd h (by simp [eanSearch])
  | cons c cs ih =>
    simp only [eanSearch] at h
    cases hm : eanMatchAt (c :: cs) with
    | some r' =>
      rw [hm] at h
      simp at h
      subst h
      exact eanMatchAt_digits_shape hm
    | none =>
      rw [hm] at h
      exact ih h

/-- C6: the regex fallback matches, case-insensitively, the keyword
followed by optional separator characters (colon, whitespace, hyphen, or
none) followed by a run of 8 to 14 digits, returning the captured digit
run; any successful capture is a digit run of length between 8 and 14; a
digit run shorter than 8 after the keyword yields no match; concretely,
"ean: 08718468778" yields "08718468778" and "EAN-1234567" yields none. -/
theorem C6_regex_tier :
    extract_ean_regex (some "ean: 08718468778") = some "08718468778" ∧
    extract_ean_regex (some "EAN-1234567") = none ∧
    (∀ (t : List Char) (r : String), eanSearch t = some r →
      r.data.all Char.isDigit = true ∧ 8 ≤ r.length ∧ r.length ≤ 14) ∧
    (∀ (k1 k2 k3 : Char) (seps ds : List Char),
      k1.toLower = 'e' → k2.toLower = 'a' → k3.toLower = 'n' →
      seps.all isEanSep = true → ds.all Char.isDigit = true →
      8 ≤ ds.length → ds.length ≤ 14 →
      eanSearch (k1 :: k2 :: k3 :: (seps ++ ds)) = some (String.mk ds)) ∧
    (∀ ds : List Char, ds.all Char.isDigit = true → ds.length < 8 →
      eanSearch ('E' :: 'A' :: 'N' :: '-' :: ds) = none) := by
  refine ⟨by decide, by decide, fun t r h => eanSearch_digits_shape h,
    ?_, ?_⟩
  · intro k1 k2 k3 seps ds h1 h2 h3 hseps hds hlen8 hlen14
    have hm : eanMatchAt (k1 :: k2 :: k3 :: (seps ++ ds)) =
        some (String.mk ds) := by
      simp only [eanMatchAt, h1, h2, h3]
      rw [dropWhile_append_of_all isEanSep seps ds hseps,
        dropWhile_isEanSep_of_digits hds, takeWhile_isDigit_of_digits hds]
      simp [hlen8, List.take_of_length_le hlen14]
    simp [eanSearch, hm]
  · intro ds hds hlen
    have h0 : eanMatchAt ('E' :: 'A' :: 'N' :: '-' :: ds) = none := by
      simp only [eanMatchAt]
      rw [List.dropWhile_cons]
      simp only [show isEanSep '-' = true from rfl, if_true]
      rw [dropWhile_isEanSep_of_digits hds, takeWhile_isDigit_of_digits hds]
      simp [Nat.not_le.mpr hlen]
    have hA : eanMatchAt ('A' :: 'N' :: '-' :: ds) = none :=
      eanMatchAt_of_not_e (by decide) _
    have hN : eanMatchAt ('N' :: '-' :: ds) = none :=
      eanMatchAt_of_not_e (by decide) _
    have hH : eanMatchAt ('-' :: ds) = none :=
      eanMatchAt_of_not_e (by decide) _
    cases ds with
    | nil => decide
    | cons d l =>
      simp only [List.all_cons, Bool.and_eq_true] at hds
      have hd : eanMatchAt (d :: l) = none :=
        eanMatchAt_digit_head hds.1 l
      have hl : eanSearch l = none := eanSearch_all_digits hds.2
      simp [eanSearch, h0, hA, hN, hH, hd, hl]

/-- Witness for C6 at concrete inputs: the capture-shape clause applied
to a successful search, the general-match clause applied to a lowercase
keyword with a colon separator, and the short-run clause applied to a
3-digit run. -/
theorem C6_regex_tier_witness :
    (("12345678" : String).data.all Char.isDigit = true ∧
      8 ≤ ("12345678" : String).length ∧
      ("12345678" : String).length ≤ 14) ∧
    eanSearch ('e' :: 'a' :: 'N' ::
        ([':', ' '] ++ ['1', '2', '3', '4', '5', '6', '7', '8'])) =
      some (String.mk ['1', '2', '3', '4', '5', '6', '7', '8']) ∧
    eanSearch ('E' :: 'A' :: 'N' :: '-' :: ['1', '2', '3']) = none := by
  refine ⟨C6_regex_tier.2.2.1 ("ean:12345678" : String).data "12345678"
      (by decide), ?_, ?_⟩
  · exact C6_regex_tier.2.2.2.1 'e' 'a' 'N' [':', ' ']
      ['1', '2', '3', '4', '5', '6', '7', '8'] (by decide) (by decide)
      (by decide) (by decide) (by decide) (by decide) (by decide)
  · exact C6_regex_tier.2.2.2.2 ['1', '2', '3'] (by decide) (by decide)

/-- C10: when the keyword is followed by a digit run longer than 14
digits, the pattern does not reject the run: the capture is the first 14
digits of the run, because nothing bounds the digit group on the right;
concretely a 15-digit run after "EAN" yields the first 14 digits. -/
theorem C10_long_run_first14 :
    (∀ ds : List Char, ds.all Char.isDigit = true → 14 < ds.length →
      eanSearch ('E' :: 'A' :: 'N' :: ds) = some (String.mk (ds.take 14))) ∧
    extract_ean_regex (some "EAN123456789012345") =
      some "12345678901234" := by
  refine ⟨?_, by decide⟩
  intro ds hds hlen
  have hm : eanMatchAt ('E' :: 'A' :: 'N' :: ds) =
      some (String.mk (ds.take 14)) := by
    simp only [eanMatchAt]
    rw [dropWhile_isEanSep_of_digits hds, takeWhile_isDigit_of_digits hds]
    have : 8 ≤ ds.length := by omega
    simp [this]
  simp [eanSearch, hm]

/-- Witness for C10 at a concrete input: a 15-digit run after the
keyword captures exactly its first 14 digits. -/
theorem C10_long_run_first14_witness :
    eanSearch ('E' :: 'A' :: 'N' ::
        ['1', '2', '3', '4', '5', '6', '7', '8', '9', '0',
         '1', '2', '3', '4', '5']) =
      some (String.mk
        (['1', '2', '3', '4', '5', '6', '7', '8', '9', '0',
          '1', '2', '3', '4', '5'].take 14)) :=
  C10_long_run_first14.1
    ['1', '2', '3', '4', '5', '6', '7', '8', '9', '0',
     '1', '2', '3', '4', '5'] (by decide) (by decide)

/-! ### Price extractor -/

/-- C7: price extraction reads the price element's leading text node,
strips non-digits to form the integer part, fails when that is empty,
combines with the fraction sub-element's stripped text as
integer.fraction when that element exists with nonempty digit text, and
defaults the fraction to "00" otherwise — including when the fraction
text is nonempty but unparseable, where the float() ValueError is caught
by the inner handler and the code falls through to the "00" default; any
lookup failure yields `none`.  Concretely "12"/"99" gives 12.99 and "8"
with no fraction element gives 8.00. -/
theorem C7_price_extraction :
    get_product_price ⟨some "12", some "99"⟩ = some (1299 / 100 : ℚ) ∧
    get_product_price ⟨some "8", none⟩ = some 8 ∧
    (∀ ft : Option String, get_product_price ⟨none, ft⟩ = none) ∧
    (∀ (raw : String) (ft : Option String),
      raw.data.filter Char.isDigit = [] →
      get_product_price ⟨some raw, ft⟩ = none) ∧
    (∀ raw ft : String, raw.data.filter Char.isDigit ≠ [] →
      pyStrip ft ≠ "" → (pyStrip ft).data.all Char.isDigit = true →
      get_product_price ⟨some raw, some ft⟩ =
        some (priceVal (raw.data.filter Char.isDigit) (pyStrip ft).data)) ∧
    (∀ raw ft : String, raw.data.filter Char.isDigit ≠ [] →
      pyStrip ft ≠ "" → (pyStrip ft).data.all Char.isDigit = false →
      get_product_price ⟨some raw, some ft⟩ =
        some (priceVal (raw.data.filter Char.isDigit) ['0', '0'])) ∧
    (∀ raw : String, raw.data.filter Char.isDigit ≠ [] →
      get_product_price ⟨some raw, none⟩ =
        some (priceVal (raw.data.filter Char.isDigit) ['0', '0'])) ∧
    (∀ main : List Char,
      priceVal main ['0', '0'] = (digitsToNat main : ℚ)) := by
  refine ⟨?_, ?_, fun ft => rfl, ?_, ?_, ?_, ?_, ?_⟩
  · have h1 : ("12" : String).data.filter Char.isDigit = ['1', '2'] := by
      decide
    have h2 : pyStrip "99" = "99" := by decide
    have d1 : digitsToNat ['1', '2'] = 12 := by decide
    have d2 : digitsToNat (("99" : String).data) = 99 := by decide
    simp [get_product_price, h1, h2, pyFloatCombine, priceVal, d1, d2]
    norm_num
  · have h1 : ("8" : String).data.filter Char.isDigit = ['8'] := by decide
    have d1 : digitsToNat ['8'] = 8 := by decide
    have d2 : digitsToNat ['0', '0'] = 0 := by decide
    simp [get_product_price, h1, priceVal, d1, d2]
  · intro raw ft h
    simp [get_product_price, h]
  · intro raw ft h1 h2 h3
    simp [get_product_price, h1, h2, pyFloatCombine, h3]
  · intro raw ft h1 h2 h3
    simp [get_product_price, h1, h2, pyFloatCombine, h3]
  · intro raw h1
    simp [get_product_price, h1]
  · intro main
    simp [priceVal, digitsToNat]

/-- Witness for C7 at concrete inputs: absent price element, a text node
with no digits, a fraction element with padded digit text, a fraction
element with unparseable text (recovered to the "00" default), and a
missing fraction element. -/
theorem C7_price_extraction_witness :
    get_product_price ⟨none, some "99"⟩ = none ∧
    get_product_price ⟨some "euro", some "99"⟩ = none ∧
    get_product_price ⟨some "12", some " 99 "⟩ =
      some (priceVal (("12" : String).data.filter Char.isDigit)
        (pyStrip " 99 ").data) ∧
    get_product_price ⟨some "12", some "ab"⟩ =
      some (priceVal (("12" : String).data.filter Char.isDigit)
        ['0', '0']) ∧
    get_product_price ⟨some "8", none⟩ =
      some (priceVal (("8" : String).data.filter Char.isDigit)
        ['0', '0']) := by
  refine ⟨C7_price_extraction.2.2.1 (some "99"),
    C7_price_extraction.2.2.2.1 "euro" (some "99") (by decide),
    C7_price_extraction.2.2.2.2.1 "12" " 99 " (by decide) (by decide)
      (by decide),
    C7_price_extraction.2.2.2.2.2.1 "12" "ab" (by decide) (by decide)
      (by decide),
    C7_price_extraction.2.2.2.2.2.2.1 "8" (by decide)⟩

/-! ### EAN tier ordering and show-more retry -/

theorem TierOutcome.run_cleanse (o : TierOutcome) :
    o.cleanse.run = o.run := by
  cases o <;> rfl

/-- C3: the three EAN tiers are tried in strict order with first success
winning — a tier-1 value is returned whatever tiers 2 and 3 and the
show-more path would do, and a tier-2 value is returned whatever tier 3
and the show-more path would do; when all three tiers report nothing and
the show-more click path succeeds, the three tiers are re-run once on
the re-resolved panel and that is the result; when all three report
nothing and no show-more control is reachable the result is `none`; an
exception inside a tier behaves exactly like not-found at that tier
(replacing every in-tier exception by not-found never changes the
result). -/
theorem C3_tier_order :
    (∀ (pg : EanPage) (v : String), pg.specOk = true →
      pg.t1 false = TierOutcome.found v →
      ∀ (t2' t3' : Bool → TierOutcome) (sm' : Bool),
        get_product_ean ⟨true, pg.t1, t2', t3', sm'⟩ = some v) ∧
    (∀ (pg : EanPage) (v : String), pg.specOk = true →
      (pg.t1 false).run = none → pg.t2 false = TierOutcome.found v →
      ∀ (t3' : Bool → TierOutcome) (sm' : Bool),
        get_product_ean ⟨true, pg.t1, pg.t2, t3', sm'⟩ = some v) ∧
    (∀ pg : EanPage, pg.specOk = true →
      (pg.t1 false).run = none → (pg.t2 false).run = none →
      (pg.t3 false).run = none → pg.showMoreOk = true →
      get_product_ean pg =
        extract_ean_from_specs (pg.t1 true) (pg.t2 true) (pg.t3 true)) ∧
    (∀ pg : EanPage, pg.specOk = true →
      (pg.t1 false).run = none → (pg.t2 false).run = none →
      (pg.t3 false).run = none → pg.showMoreOk = false →
      get_product_ean pg = none) ∧
    (∀ pg : EanPage,
      get_product_ean ⟨pg.specOk, TierOutcome.cleanse ∘ pg.t1,
        TierOutcome.cleanse ∘ pg.t2, TierOutcome.cleanse ∘ pg.t3,
        pg.showMoreOk⟩ = get_product_ean pg) := by
  refine ⟨?_, ?_, ?_, ?_, ?_⟩
  · intro pg v _ h t2' t3' sm'
    have h' : (pg.t1 false).run = some v := by rw [h]; rfl
    simp [get_product_ean, extract_ean_from_specs, h']
  · intro pg v _ h1 h2 t3' sm'
    have h2' : (pg.t2 false).run = some v := by rw [h2]; rfl
    simp [get_product_ean, extract_ean_from_specs, h1, h2']
  · intro pg hspec h1 h2 h3 hsm
    simp [get_product_ean, extract_ean_from_specs, hspec, h1, h2, h3,
      try_show_more_and_extract, hsm]
  · intro pg hspec h1 h2 h3 hsm
    simp [get_product_ean, extract_ean_from_specs, hspec, h1, h2, h3,
      try_show_more_and_extract, hsm]
  · intro pg
    simp [get_product_ean, extract_ean_from_specs,
      try_show_more_and_extract, Function.comp, TierOutcome.run_cleanse]

/-- Witness for C3 at a concrete page: tier 1 finds a value and tiers 2
and 3 are set to raise, with a show-more control present; the tier-1
value is returned. -/
theorem C3_tier_order_witness :
    get_product_ean ⟨true, fun _ => TierOutcome.found "12345678",
      fun _ => TierOutcome.raised, fun _ => TierOutcome.raised, true⟩ =
      some "12345678" :=
  C3_tier_order.1
    ⟨true, fun _ => TierOutcome.found "12345678",
      fun _ => TierOutcome.absent, fun _ => TierOutcome.absent, false⟩
    "12345678" rfl rfl (fun _ => TierOutcome.raised)
    (fun _ => TierOutcome.raised) true

/-! ### First-seen deduplication -/

theorem mem_dedupFirstAux :
    ∀ (l seen : List String) (a : String),
    a ∈ dedupFirstAux seen l ↔ a ∈ l ∧ a ∉ seen := by
  intro l
  induction l with
  | nil => intro seen a; simp [dedupFirstAux]
  | cons x xs ih =>
    intro seen a
    by_cases hx : x ∈ seen
    · simp only [dedupFirstAux, if_pos hx, ih]
      constructor
      · rintro ⟨h1, h2⟩; exact ⟨List.mem_cons_of_mem x h1, h2⟩
      · rintro ⟨h1, h2⟩
        rcases List.mem_cons.mp h1 with rfl | h1
        · exact absurd hx h2
        · exact ⟨h1, h2⟩
    · simp only [dedupFirstAux, if_neg hx, List.mem_cons, ih]
      constructor
      · rintro (rfl | ⟨h1, h2⟩)
        · exact ⟨Or.inl rfl, hx⟩
        · exact ⟨Or.inr h1, fun hs => h2 (Or.inr hs)⟩
      · rintro ⟨rfl | h1, h2⟩
        · exact Or.inl rfl
        · by_cases hax : a = x
          · exact Or.inl hax
          · exact Or.inr ⟨h1, fun hs => by
              rcases hs with h | h
              · exact hax h
              · exact h2 h⟩

theorem nodup_dedupFirstAux :
    ∀ (l seen : List String), (dedupFirstAux seen l).Nodup := by
  intro l
  induction l with
  | nil => intro seen; simp [dedupFirstAux]
  | cons x xs ih =>
    intro seen
    by_cases hx : x ∈ seen
    · simpa [dedupFirstAux, hx] using ih seen
    · simp only [dedupFirstAux, if_neg hx]
      refine List.nodup_cons.mpr ⟨fun hmem => ?_, ih (x :: seen)⟩
      exact ((mem_dedupFirstAux xs (x :: seen) x).mp hmem).2
        (List.mem_cons_self x seen)

theorem pairwise_dedupFirstAux :
    ∀ (l seen : List String),
    (dedupFirstAux seen l).Pairwise
      (fun a b => l.indexOf a < l.indexOf b) := by
  intro l
  induction l with
  | nil => intro seen; simp [dedupFirstAux]
  | cons x xs ih =>
    intro seen
    by_cases hx : x ∈ seen
    · simp only [dedupFirstAux, if_pos hx]
      refine (ih seen).imp_of_mem ?_
      intro a b ha hb hlt
      have hax : a ≠ x :=
        fun h => ((mem_dedupFirstAux xs seen a).mp ha).2 (h ▸ hx)
      have hbx : b ≠ x :=
        fun h => ((mem_dedupFirstAux xs seen b).mp hb).2 (h ▸ hx)
      rw [List.indexOf_cons_ne xs (Ne.symm hax),
        List.indexOf_cons_ne xs (Ne.symm hbx)]
      omega
    · simp only [dedupFirstAux, if_neg hx]
      refine List.pairwise_cons.mpr ⟨?_, ?_⟩
      · intro b hb
        have hbx : b ≠ x := fun h => by
          have := ((mem_dedupFirstAux xs (x :: seen) b).mp hb).2
          exact this (h ▸ List.mem_cons_self x seen)
        rw [List.indexOf_cons_self, List.indexOf_cons_ne xs (Ne.symm hbx)]
        exact Nat.succ_pos _
      · refine (ih (x :: seen)).imp_of_mem ?_
        intro a b ha hb hlt
        have hax : a ≠ x := fun h => by
          have := ((mem_dedupFirstAux xs (x :: seen) a).mp ha).2
          exact this (h ▸ List.mem_cons_self x seen)
        have hbx : b ≠ x := fun h => by
          have := ((mem_dedupFirstAux xs (x :: seen) b).mp hb).2
          exact this (h ▸ List.mem_cons_self x seen)
        rw [List.indexOf_cons_ne xs (Ne.symm hax),
          List.indexOf_cons_ne xs (Ne.symm hbx)]
        omega

theorem pyDedup_nodup (l : List String) : (pyDedup l).Nodup :=
  nodup_dedupFirstAux l []

theorem mem_pyDedup (l : List String) (a : String) :
    a ∈ pyDedup l ↔ a ∈ l := by
  simp [pyDedup, mem_dedupFirstAux]

theorem pyDedup_pairwise (l : List String) :
    (pyDedup l).Pairwise (fun a b => l.indexOf a < l.indexOf b) :=
  pairwise_dedupFirstAux l []

/-- C9: on a single listing page the collector returns the product URLs
with duplicates removed and first-seen order preserved: the result has
no duplicates, contains exactly the candidate URLs, and lists them in
strictly increasing order of first occurrence; a page yielding links
[A, B, A, C] produces exactly [A, B, C]. -/
theorem C9_dedup_order (join : String → String) (pg : ListingPage)
    (hnav : pg.navOk = true) (hwait : pg.waitOk = true) :
    (extract_product_urls join pg).Nodup ∧
    (∀ u, u ∈ extract_product_urls join pg ↔
      u ∈ candidateUrls join pg) ∧
    (extract_product_urls join pg).Pairwise
      (fun a b => (candidateUrls join pg).indexOf a <
        (candidateUrls join pg).indexOf b) ∧
    extract_product_urls id
      ⟨true, true,
        [some "https://www.bol.com/nl/nl/p/a/1",
         some "https://www.bol.com/nl/nl/p/b/2",
         some "https://www.bol.com/nl/nl/p/a/1",
         some "https://www.bol.com/nl/nl/p/c/3"]⟩ =
      ["https://www.bol.com/nl/nl/p/a/1",
       "https://www.bol.com/nl/nl/p/b/2",
       "https://www.bol.com/nl/nl/p/c/3"] := by
  have heq : extract_product_urls join pg =
      pyDedup (candidateUrls join pg) := by
    simp [extract_product_urls, hnav, hwait]
  refine ⟨?_, ?_, ?_, by decide⟩
  · rw [heq]; exact pyDedup_nodup _
  · intro u; rw [heq]; exact mem_pyDedup _ u
  · rw [heq]; exact pyDedup_pairwise _

/-- Witness for C9 at a concrete page: the general clauses applied to
the [A, B, A, C] page. -/
theorem C9_dedup_order_witness :
    (extract_product_urls id
      ⟨true, true,
        [some "https://www.bol.com/nl/nl/p/a/1",
         some "https://www.bol.com/nl/nl/p/b/2",
         some "https://www.bol.com/nl/nl/p/a/1",
         some "https://www.bol.com/nl/nl/p/c/3"]⟩).Nodup ∧
    ("https://www.bol.com/nl/nl/p/b/2" ∈ extract_product_urls id
      ⟨true, true,
        [some "https://www.bol.com/nl/nl/p/a/1",
         some "https://www.bol.com/nl/nl/p/b/2",
         some "https://www.bol.com/nl/nl/p/a/1",
         some "https://www.bol.com/nl/nl/p/c/3"]⟩ ↔
      "https://www.bol.com/nl/nl/p/b/2" ∈ candidateUrls id
      ⟨true, true,
        [some "https://www.bol.com/nl/nl/p/a/1",
         some "https://www.bol.com/nl/nl/p/b/2",
         some "https://www.bol.com/nl/nl/p/a/1",
         some "https://www.bol.com/nl/nl/p/c/3"]⟩) :=
  ⟨(C9_dedup_order id _ rfl rfl).1,
   (C9_dedup_order id _ rfl rfl).2.1 _⟩

/-! ### Page-range resolution -/

/-- C5: with `start_page ≥ 1` and `max_pages ≥ 1` (or unbounded), a start
page beyond the total returns the empty list without error; otherwise
the resolved end page is at least the start page and the number of
processed pages is exactly `end_page - start_page + 1`. -/
theorem C5_page_range (total start_page : Nat) (max_pages : Option Nat)
    (hs : 1 ≤ start_page)
    (hm : ∀ m, max_pages = some m → 1 ≤ m) :
    (∀ (w : CategoryWorld) (enum : List String → List String),
      w.navOk = true → w.waitOk = true →
      w.pageUrls.length = total → total < start_page →
      extract_product_urls_from_category enum w start_page max_pages
        = []) ∧
    (start_page ≤ total →
      start_page ≤ resolvedEndPage total start_page max_pages ∧
      resolvedEndPage total start_page max_pages ≤ total ∧
      ∀ urls : List String, urls.length = total →
        (pagesToProcess urls start_page
          (resolvedEndPage total start_page max_pages)).length =
        resolvedEndPage total start_page max_pages - start_page + 1) := by
  constructor
  · intro w enum hnav hwait hlen hgt
    have hmax : max 1 start_page = start_page := Nat.max_eq_right hs
    simp [extract_product_urls_from_category, hnav, hwait, hlen, hmax,
      hgt]
  · intro hle
    have hend : start_page ≤ resolvedEndPage total start_page max_pages ∧
        resolvedEndPage total start_page max_pages ≤ total := by
      cases max_pages with
      | none => exact ⟨hle, Nat.le_refl total⟩
      | some m =>
        have hm1 : 1 ≤ m := hm m rfl
        constructor
        · simp only [resolvedEndPage]
          exact le_min (by omega) hle
        · simp only [resolvedEndPage]
          exact min_le_right _ _
    refine ⟨hend.1, hend.2, ?_⟩
    intro urls hlen
    simp only [pagesToProcess, List.length_take, List.length_drop, hlen]
    omega

/-- Witness for C5 at concrete inputs: 3 total pages with start page 5
give the empty list, and start page 2 with one page requested resolves
to end page 2 and exactly one processed page. -/
theorem C5_page_range_witness :
    extract_product_urls_from_category pyDedup
      ⟨true, true, ["p1", "p2", "p3"], fun _ => []⟩ 5 (some 2) = [] ∧
    (2 ≤ resolvedEndPage 3 2 (some 1) ∧
      resolvedEndPage 3 2 (some 1) ≤ 3 ∧
      (pagesToProcess ["p1", "p2", "p3"] 2
        (resolvedEndPage 3 2 (some 1))).length =
      resolvedEndPage 3 2 (some 1) - 2 + 1) := by
  constructor
  · exact (C5_page_range 3 5 (some 2) (by decide)
      (fun m hm => by simp at hm; omega)).1
      ⟨true, true, ["p1", "p2", "p3"], fun _ => []⟩ pyDedup rfl rfl rfl
      (by decide)
  · have h := (C5_page_range 3 2 (some 1) (by decide)
      (fun m hm => by simp at hm; omega)).2 (by decide)
    exact ⟨h.1, h.2.1, h.2.2 ["p1", "p2", "p3"] rfl⟩

/-! ### Category-level union and its order -/

/-- C1 counterexample: it is not the case that, for every run (every set
enumeration consistent with CPython set semantics, every world), the
category-level result lists the union in first-discovery order: a valid
enumeration of a two-element set can return it in the reverse of
first-discovery order. -/
theorem C1_counterexample :
    ¬ (∀ (enum : List String → List String), IsSetEnum enum →
        ∀ (w : CategoryWorld) (s : Nat) (mp : Option Nat),
          extract_product_urls_from_category enum w s mp =
            pyDedup (categoryInsertionSeq w s mp)) := by
  intro h
  have henum : IsSetEnum (fun xs => (pyDedup xs).reverse) := by
    intro xs
    exact ⟨List.nodup_reverse.mpr (pyDedup_nodup xs),
      fun a => by simp [List.mem_reverse, mem_pyDedup]⟩
  have hc := h (fun xs => (pyDedup xs).reverse) henum
    ⟨true, true, ["page1"], fun _ => ["a", "b"]⟩ 1 none
  revert hc
  decide

/-- C1 amended: for every run whose category page loads, the returned
list contains each discovered product URL exactly once (duplicates
collapsed by URL, i.e. it is duplicate-free and its members are exactly
the URLs yielded by the processed pages), but its order is the Python
set's unspecified iteration order, not necessarily first-discovery
order. -/
theorem C1_amended_union_membership (enum : List String → List String)
    (henum : IsSetEnum enum) (w : CategoryWorld) (s : Nat)
    (mp : Option Nat) (hnav : w.navOk = true) (hwait : w.waitOk = true) :
    (extract_product_urls_from_category enum w s mp).Nodup ∧
    ∀ u, u ∈ extract_product_urls_from_category enum w s mp ↔
      u ∈ categoryInsertionSeq w s mp := by
  by_cases hgt : w.pageUrls.length < max 1 s
  · have hseq : categoryInsertionSeq w s mp = [] := by
      unfold categoryInsertionSeq pagesToProcess
      have hdrop : w.pageUrls.drop (max 1 s - 1) = [] := by
        apply List.drop_eq_nil_of_le
        have : 1 ≤ max 1 s := Nat.le_max_left 1 s
        omega
      simp [hdrop]
    have hres : extract_product_urls_from_category enum w s mp = [] := by
      simp [extract_product_urls_from_category, hnav, hwait, hgt]
    rw [hres, hseq]
    simp
  · have hres : extract_product_urls_from_category enum w s mp =
        enum (categoryInsertionSeq w s mp) := by
      simp [extract_product_urls_from_category, hnav, hwait, hgt]
    rw [hres]
    exact ⟨(henum _).1, (henum _).2⟩

/-- Witness for C1's amended statement at a concrete run: one page
yielding ["a", "b", "a"], enumerated by an order-preserving valid
enumeration. -/
theorem C1_amended_witness :
    (extract_product_urls_from_category pyDedup
      ⟨true, true, ["page1"], fun _ => ["a", "b", "a"]⟩ 1 none).Nodup ∧
    ∀ u, u ∈ extract_product_urls_from_category pyDedup
      ⟨true, true, ["page1"], fun _ => ["a", "b", "a"]⟩ 1 none ↔
      u ∈ categoryInsertionSeq
        ⟨true, true, ["page1"], fun _ => ["a", "b", "a"]⟩ 1 none :=
  C1_amended_union_membership pyDedup
    (fun xs => ⟨pyDedup_nodup xs, fun a => mem_pyDedup xs a⟩)
    ⟨true, true, ["page1"], fun _ => ["a", "b", "a"]⟩ 1 none rfl rfl

/-! ### Two-phase statistics -/

/-- C2 counterexample: in the spec's own scenario — P1 fully succeeds
(price 9.99, code "12345678"), P2 fails both fields in phase 1 and
recovers its code in the retry phase — the final summary reports
missing_price_count = 1 and missing_ean_count = 0 as claimed, but
error_count is still 1, not 0: the retry phase never adjusts
error_count. -/
theorem C2_counterexample :
    (scrapeStats
      (fun u => if u = "P1"
        then FetchOutcome.ok (some (999 / 100 : ℚ)) (some "12345678")
        else FetchOutcome.ok none none)
      (fun _ => none)
      (fun u => if u = "P2" then some "24411111111" else none)
      ["P1", "P2"]).errorCount = 1 ∧
    (scrapeStats
      (fun u => if u = "P1"
        then FetchOutcome.ok (some (999 / 100 : ℚ)) (some "12345678")
        else FetchOutcome.ok none none)
      (fun _ => none)
      (fun u => if u = "P2" then some "24411111111" else none)
      ["P1", "P2"]).errorCount ≠ 0 := by
  refine ⟨rfl, ?_⟩
  intro h
  rw [show (scrapeStats
      (fun u => if u = "P1"
        then FetchOutcome.ok (some (999 / 100 : ℚ)) (some "12345678")
        else FetchOutcome.ok none none)
      (fun _ => none)
      (fun u => if u = "P2" then some "24411111111" else none)
      ["P1", "P2"]).errorCount = 1 from rfl] at h
  exact absurd h (by decide)

/-- C2 amended: in that scenario the final dataset is
P1 = (9.99, "12345678") and P2 = ("", recovered code), with
missing_price_count = 1 and missing_ean_count = 0, while error_count
remains 1 from phase 1 (the retry phase updates only the two
missing-field counters, never error_count). -/
theorem C2_amended_stats :
    (scrapeStats
      (fun u => if u = "P1"
        then FetchOutcome.ok (some (999 / 100 : ℚ)) (some "12345678")
        else FetchOutcome.ok none none)
      (fun _ => none)
      (fun u => if u = "P2" then some "24411111111" else none)
      ["P1", "P2"]).products =
      [⟨"P1", some "12345678", some (999 / 100 : ℚ)⟩,
       ⟨"P2", some "24411111111", none⟩] ∧
    (scrapeStats
      (fun u => if u = "P1"
        then FetchOutcome.ok (some (999 / 100 : ℚ)) (some "12345678")
        else FetchOutcome.ok none none)
      (fun _ => none)
      (fun u => if u = "P2" then some "24411111111" else none)
      ["P1", "P2"]).missingPrice = 1 ∧
    (scrapeStats
      (fun u => if u = "P1"
        then FetchOutcome.ok (some (999 / 100 : ℚ)) (some "12345678")
        else FetchOutcome.ok none none)
      (fun _ => none)
      (fun u => if u = "P2" then some "24411111111" else none)
      ["P1", "P2"]).missingEan = 0 ∧
    (scrapeStats
      (fun u => if u = "P1"
        then FetchOutcome.ok (some (999 / 100 : ℚ)) (some "12345678")
        else FetchOutcome.ok none none)
      (fun _ => none)
      (fun u => if u = "P2" then some "24411111111" else none)
      ["P1", "P2"]).errorCount = 1 :=
  ⟨rfl, rfl, rfl, rfl⟩

/-! ### Retry-phase frame property -/

theorem preservedRec_refl (r : ProductRec) : PreservedRec r r :=
  ⟨rfl, fun _ h => h, fun _ h => h⟩

theorem preservedRec_trans {a b c : ProductRec}
    (h1 : PreservedRec a b) (h2 : PreservedRec b c) : PreservedRec a c :=
  ⟨h2.1.trans h1.1, fun v hv => h2.2.1 v (h1.2.1 v hv),
   fun e he => h2.2.2 e (h1.2.2 e he)⟩

theorem forall₂_preserved_refl (l : List ProductRec) :
    List.Forall₂ PreservedRec l l :=
  List.forall₂_same.mpr (fun r _ => preservedRec_refl r)

theorem forall₂_preserved_trans :
    ∀ {l1 l2 l3 : List ProductRec}, List.Forall₂ PreservedRec l1 l2 →
    List.Forall₂ PreservedRec l2 l3 → List.Forall₂ PreservedRec l1 l3 := by
  intro l1 l2 l3 h1 h2
  induction h1 generalizing l3 with
  | nil => cases h2; exact List.Forall₂.nil
  | cons hab htail ih =>
    cases h2 with
    | cons hbc h2tail =>
      exact List.Forall₂.cons (preservedRec_trans hab hbc) (ih h2tail)

theorem forall₂_updateFirstBy (f : ProductRec → ProductRec) (url : String) :
    ∀ l : List ProductRec,
    (∀ r, l.find? (fun x => x.url = url) = some r → PreservedRec r (f r)) →
    List.Forall₂ PreservedRec l (updateFirstBy f url l) := by
  intro l
  induction l with
  | nil => intro _; exact List.Forall₂.nil
  | cons a l ih =>
    intro h
    by_cases ha : a.url = url
    · have hfind : (a :: l).find? (fun x => x.url = url) = some a := by
        simp [List.find?_cons, ha]
      simp only [updateFirstBy, if_pos ha]
      exact List.Forall₂.cons (h a hfind) (forall₂_preserved_refl l)
    · have hfind : ∀ r, l.find? (fun x => x.url = url) = some r →
          PreservedRec r (f r) := by
        intro r hr
        refine h r ?_
        simpa [List.find?_cons, ha] using hr
      simp only [updateFirstBy, if_neg ha]
      exact List.Forall₂.cons (preservedRec_refl a) (ih hfind)

theorem forall₂_updateLastBy (f : ProductRec → ProductRec) (url : String)
    (l : List ProductRec)
    (h : ∀ r, lastRec l url = some r → PreservedRec r (f r)) :
    List.Forall₂ PreservedRec l (updateLastBy f url l) := by
  have hrev := forall₂_updateFirstBy f url l.reverse
    (fun r hr => h r hr)
  have := List.rel_reverse hrev
  simpa [updateLastBy] using this

theorem forall₂_retryStep (p2price : String → Option ℚ)
    (p2ean : String → Option String) (st : Stats) (url : String) :
    List.Forall₂ PreservedRec st.products
      (retryStep p2price p2ean st url).products := by
  unfold retryStep
  cases hfind : lastRec st.products url with
  | none => exact forall₂_preserved_refl st.products
  | some r =>
    simp only
    refine forall₂_updateLastBy _ url st.products ?_
    intro q hq
    rw [hfind] at hq
    cases hq
    have hurl : (⟨r.url,
        match (if r.ean = none then p2ean url else none) with
        | some e => some e | none => r.ean,
        match (if r.price = none then p2price url else none) with
        | some v => some v | none => r.price⟩ : ProductRec).url = r.url :=
      rfl
    refine ⟨hurl, ?_, ?_⟩
    · intro v hv
      have : r.price ≠ none := by rw [hv]; exact Option.some_ne_none v
      simp [if_neg this]
      exact hv
    · intro e he
      have : r.ean ≠ none := by rw [he]; exact Option.some_ne_none e
      simp [if_neg this]
      exact he

theorem forall₂_retry_fold (p2price : String → Option ℚ)
    (p2ean : String → Option String) :
    ∀ (urls : List String) (st : Stats),
    List.Forall₂ PreservedRec st.products
      (urls.foldl (retryStep p2price p2ean) st).products := by
  intro urls
  induction urls with
  | nil => intro st; exact forall₂_preserved_refl st.products
  | cons u us ih =>
    intro st
    exact forall₂_preserved_trans
      (forall₂_retryStep p2price p2ean st u)
      (ih (retryStep p2price p2ean st u))

/-- C8: the retry phase only re-attempts fields that are still empty and
mutates records in place: the dataset after the full two-phase run has
the same length and, position by position, the same URLs as after phase
1, and every field already set in phase 1 holds exactly the same value
afterwards, whatever the phase-2 extractions would return. -/
theorem C8_retry_frame (fetch : String → FetchOutcome)
    (p2price : String → Option ℚ) (p2ean : String → Option String)
    (urls : List String) :
    (scrapeStats fetch p2price p2ean urls).products.length =
      (extract_product_details fetch urls).products.length ∧
    List.Forall₂ PreservedRec
      (extract_product_details fetch urls).products
      (scrapeStats fetch p2price p2ean urls).products := by
  have hf2 : List.Forall₂ PreservedRec
      (extract_product_details fetch urls).products
      (scrapeStats fetch p2price p2ean urls).products := by
    unfold scrapeStats
    by_cases hfail : (extract_product_details fetch urls).failed ≠ []
    · simp only [if_pos hfail]
      exact forall₂_retry_fold p2price p2ean _ _
    · simp only [if_neg hfail]
      exact forall₂_preserved_refl _
  exact ⟨hf2.length_eq.symm, hf2⟩

/-- Witness for C8 at a concrete run: two URLs, the second failing both
fields in phase 1, with a phase-2 oracle that would overwrite the first
product's fields if it were (wrongly) re-attempted. -/
theorem C8_retry_frame_witness :
    (scrapeStats
      (fun u => if u = "Q1"
        then FetchOutcome.ok (some (5 : ℚ)) (some "87654321")
        else FetchOutcome.ok none none)
      (fun _ => some (7 : ℚ)) (fun _ => some "00000000")
      ["Q1", "Q2"]).products.length =
      (extract_product_details
        (fun u => if u = "Q1"
          then FetchOutcome.ok (some (5 : ℚ)) (some "87654321")
          else FetchOutcome.ok none none)
        ["Q1", "Q2"]).products.length ∧
    List.Forall₂ PreservedRec
      (extract_product_details
        (fun u => if u = "Q1"
          then FetchOutcome.ok (some (5 : ℚ)) (some "87654321")
          else FetchOutcome.ok none none)
        ["Q1", "Q2"]).products
      (scrapeStats
        (fun u => if u = "Q1"
          then FetchOutcome.ok (some (5 : ℚ)) (some "87654321")
          else FetchOutcome.ok none none)
        (fun _ => some (7 : ℚ)) (fun _ => some "00000000")
        ["Q1", "Q2"]).products :=
  C8_retry_frame
    (fun u => if u = "Q1"
      then FetchOutcome.ok (some (5 : ℚ)) (some "87654321")
      else FetchOutcome.ok none none)
    (fun _ => some (7 : ℚ)) (fun _ => some "00000000") ["Q1", "Q2"]
